import Mathlib

/-!
Verification of the kmslife repository: a bit-packed toroidal Game of Life
engine (`src/kmslife.c`) rendered through DRM dumb buffers
(`src/drm-utils.c`).  The definitions below are a shallow embedding of the
C sources: byte-packed planes become `List Nat` (one entry per byte),
pointer-swapped planes become structure fields, and fallible device calls
become explicit boolean/optional parameters.
-/

set_option maxRecDepth 100000

namespace Kmslife

/-- `struct grid` from kmslife.c: cell dimensions, row pitch in bytes,
magnification scale, and the two bit-packed planes.  `parents` is the
current (authoritative) plane, `cells` the scratch plane written by a tick.
Each list entry models one byte of the C allocation. -/
structure Grid where
  width : Nat
  pitch : Nat
  height : Nat
  scale : Nat
  parents : List Nat
  cells : List Nat
deriving Repr, DecidableEq

/-- `wrap(int i, unsigned int max)` from kmslife.c lines 32-41: adds or
subtracts `max` once when the index is out of range. -/
def wrap (i : Int) (max : Nat) : Nat :=
  if i < 0 then (i + max).toNat
  else if i ≥ max then (i - max).toNat
  else i.toNat

/-- `grid_offset`: byte offset of cell (x,y), `y * pitch + x / 8`. -/
def grid_offset (pitch x y : Nat) : Nat :=
  y * pitch + x / 8

/-- Read one byte of a plane; out-of-range reads yield 0 (the C code never
performs them on well-formed grids). -/
def getByte (plane : List Nat) (off : Nat) : Nat :=
  plane.getD off 0

/-- Test of `p[x/8] & BIT(x%8)`: the bit of cell (x,y) in a plane. -/
def gridGetBit (plane : List Nat) (pitch x y : Nat) : Bool :=
  Nat.testBit (getByte plane (grid_offset pitch x y)) (x % 8)

/-- `*p |= BIT(k)` on the byte at `off`. -/
def setBitByte (plane : List Nat) (off k : Nat) : List Nat :=
  plane.set off (getByte plane off ||| 2 ^ k)

/-- The eight neighbour offsets `(i, j)` in the iteration order of
`grid_tick_cell` (outer loop `j`, inner loop `i`, centre skipped). -/
def neighborDeltas : List (Int × Int) :=
  [(-1, -1), (0, -1), (1, -1), (-1, 0), (1, 0), (-1, 1), (0, 1), (1, 1)]

/-- The live-neighbour count computed by `grid_tick_cell` lines 102-116:
each of the eight offsets is wrapped through `wrap` and looked up in the
`parents` plane.  Phrased on a raw plane so that lemmas about the tick loop
can hold the `parents` plane fixed. -/
def countBytes (parents : List Nat) (width pitch height : Nat) (x y : Nat) : Nat :=
  (neighborDeltas.filter fun d =>
    gridGetBit parents pitch (wrap (x + d.1) width) (wrap (y + d.2) height)).length

/-- The neighbour count of `grid_tick_cell` on a grid. -/
def neighborCount (g : Grid) (x y : Nat) : Nat :=
  countBytes g.parents g.width g.pitch g.height x y

/-- The bit `grid_tick_cell` decides to OR into the `cells` plane for cell
(x,y): lines 121-129 of kmslife.c (the C local `count` is inlined). -/
def ruleBit (parents : List Nat) (width pitch height : Nat) (x y : Nat) : Bool :=
  if gridGetBit parents pitch x y then
    decide (countBytes parents width pitch height x y = 2 ∨
      countBytes parents width pitch height x y = 3)
  else decide (countBytes parents width pitch height x y = 3)

/-- The plane update performed by `grid_tick_cell` lines 118-129 on the
`cells` plane: a live cell with 2 or 3 live neighbours, or a dead cell with
exactly 3, gets its bit OR-ed in; otherwise the plane is left alone. -/
def tickCellBytes (parents : List Nat) (width pitch height : Nat)
    (cells : List Nat) (x y : Nat) : List Nat :=
  if gridGetBit parents pitch x y then
    if countBytes parents width pitch height x y = 2 ∨
        countBytes parents width pitch height x y = 3 then
      setBitByte cells (grid_offset pitch x y) (x % 8)
    else cells
  else
    if countBytes parents width pitch height x y = 3 then
      setBitByte cells (grid_offset pitch x y) (x % 8)
    else cells

/-- `grid_tick_cell(grid, x, y)`: reads the `parents` plane, writes only the
`cells` plane. -/
def gridTickCell (g : Grid) (x y : Nat) : Grid :=
  { g with cells := tickCellBytes g.parents g.width g.pitch g.height g.cells x y }

/-- `memset(plane, 0, n)`: zeroes the first `n` bytes of a plane, leaving
any further bytes of the allocation untouched (grid_new may allocate more
than `pitch * height` bytes when `scale` does not divide the height). -/
def memsetZero (plane : List Nat) (n : Nat) : List Nat :=
  List.replicate n 0 ++ plane.drop n

/-- `grid_tick(grid)` lines 132-141: zeroes `pitch * height` bytes of the
`cells` plane (`memset`), then runs `grid_tick_cell` for every y < height,
x < width in row-major order. -/
def gridTick (g : Grid) : Grid :=
  (List.range g.height).foldl
    (fun acc y => (List.range g.width).foldl (fun acc2 x => gridTickCell acc2 x y) acc)
    { g with cells := memsetZero g.cells (g.pitch * g.height) }

/-- `grid_swap(grid)` lines 182-187: exchanges the two plane pointers. -/
def gridSwap (g : Grid) : Grid :=
  { g with parents := g.cells, cells := g.parents }

/-- `grid_add_cell(grid, x, y)` lines 189-194: sets the bit of (x,y) in the
`parents` plane. -/
def gridAddCell (g : Grid) (x y : Nat) : Grid :=
  { g with parents := setBitByte g.parents (grid_offset g.pitch x y) (x % 8) }

/-- `grid_add_glider(grid, x, y)` lines 209-216. -/
def gridAddGlider (g : Grid) (x y : Nat) : Grid :=
  gridAddCell
    (gridAddCell
      (gridAddCell
        (gridAddCell
          (gridAddCell g (x + 1) (y + 0)) (x + 2) (y + 1))
        (x + 0) (y + 2))
      (x + 1) (y + 2))
    (x + 2) (y + 2)

/-! Spec-side descriptions, used only as comparison targets: the neighbour
count with indices taken modulo the dimensions (Int.emod), and the standard
Life transition table as the spec states it. -/

/-- Neighbour count as the spec words it: row and column indices of the
eight adjacent cells taken modulo height and width. -/
def neighborCountMod (g : Grid) (x y : Nat) : Nat :=
  (neighborDeltas.filter fun d =>
    gridGetBit g.parents g.pitch ((((x : Int) + d.1) % (g.width : Int)).toNat)
      ((((y : Int) + d.2) % (g.height : Int)).toNat)).length

/-- The spec's transition table: (alive,2) and (alive,3) stay alive,
(dead,3) is born, everything else is dead. -/
def lifeSpecRule (alive : Bool) (n : Nat) : Bool :=
  if alive then decide (n = 2 ∨ n = 3) else decide (n = 3)

/-! ### Lemmas about bit access and single-cell updates -/

theorem tickCellBytes_length (P : List Nat) (w p h : Nat) (cs : List Nat) (x y : Nat) :
    (tickCellBytes P w p h cs x y).length = cs.length := by
  unfold tickCellBytes setBitByte
  split <;> split <;> simp [List.length_set]

theorem getByte_set_self (plane : List Nat) (off v : Nat) (h : off < plane.length) :
    getByte (plane.set off v) off = v := by
  simp [getByte, List.getD_eq_getElem?_getD, List.getElem?_set_eq_of_lt v h]

theorem getByte_set_other (plane : List Nat) (off v off' : Nat) (h : off' ≠ off) :
    getByte (plane.set off v) off' = getByte plane off' := by
  simp [getByte, List.getD_eq_getElem?_getD, List.getElem?_set_ne (Ne.symm h)]

theorem testBit_or_pow (b k j : Nat) :
    Nat.testBit (b ||| 2 ^ k) j = (Nat.testBit b j || decide (j = k)) := by
  rw [Nat.testBit_lor]
  by_cases hjk : j = k
  · subst hjk; simp [Nat.testBit_two_pow_self]
  · simp [hjk, Nat.testBit_two_pow_of_ne (Ne.symm hjk)]

theorem gridGetBit_setBitByte (cs : List Nat) (p x y x' y' : Nat)
    (hoff : grid_offset p x y < cs.length) :
    gridGetBit (setBitByte cs (grid_offset p x y) (x % 8)) p x' y' =
      (gridGetBit cs p x' y' ||
        decide (grid_offset p x' y' = grid_offset p x y ∧ x' % 8 = x % 8)) := by
  by_cases he : grid_offset p x' y' = grid_offset p x y
  · rw [gridGetBit, setBitByte, he, getByte_set_self _ _ _ hoff, testBit_or_pow]
    simp [gridGetBit, he]
  · rw [gridGetBit, setBitByte, getByte_set_other _ _ _ _ he]
    simp [gridGetBit, he]

theorem gridGetBit_tickCellBytes (P : List Nat) (w p h : Nat) (cs : List Nat)
    (x y x' y' : Nat) (hoff : grid_offset p x y < cs.length) :
    gridGetBit (tickCellBytes P w p h cs x y) p x' y' =
      (gridGetBit cs p x' y' ||
        (ruleBit P w p h x y &&
          decide (grid_offset p x' y' = grid_offset p x y ∧ x' % 8 = x % 8))) := by
  unfold tickCellBytes ruleBit
  split
  · split
    · rename_i hc
      rw [gridGetBit_setBitByte cs p x y x' y' hoff]
      simp [hc]
    · rename_i hc
      simp [hc]
  · split
    · rename_i hc
      rw [gridGetBit_setBitByte cs p x y x' y' hoff]
      simp [hc]
    · rename_i hc
      simp [hc]

theorem grid_offset_inj {p x y x' y' : Nat} (hx : x < 8 * p) (hx' : x' < 8 * p)
    (he : grid_offset p x' y' = grid_offset p x y) (hb : x' % 8 = x % 8) :
    x' = x ∧ y' = y := by
  have hp : 0 < p := by omega
  have ha : x / 8 < p := by omega
  have ha' : x' / 8 < p := by omega
  unfold grid_offset at he
  have hmod : (x' / 8 + p * y') % p = (x / 8 + p * y) % p := by
    rw [Nat.add_comm (x' / 8), Nat.add_comm (x / 8), Nat.mul_comm p y', Nat.mul_comm p y, he]
  rw [Nat.add_mul_mod_self_left, Nat.add_mul_mod_self_left,
    Nat.mod_eq_of_lt ha', Nat.mod_eq_of_lt ha] at hmod
  rw [hmod] at he
  have hyy : y' * p = y * p := Nat.add_right_cancel he
  have hy : y' = y := Nat.eq_of_mul_eq_mul_right hp hyy
  exact ⟨by omega, hy⟩

/-! ### The tick loop, one row at a time -/

theorem innerFold_length (P : List Nat) (w p h y : Nat) :
    ∀ (n : Nat) (cs : List Nat),
      ((List.range n).foldl (fun cs2 x => tickCellBytes P w p h cs2 x y) cs).length =
        cs.length := by
  intro n
  induction n with
  | zero => intro cs; rfl
  | succ n ih =>
    intro cs
    rw [List.range_succ, List.foldl_append]
    simp [tickCellBytes_length, ih]

theorem grid_offset_lt (p h x y : Nat) (hp : x < 8 * p) (hy : y < h) :
    grid_offset p x y < p * h := by
  have hpp : 0 < p := by omega
  have hd : x / 8 < p := by omega
  unfold grid_offset
  calc y * p + x / 8 < y * p + p := by omega
    _ = (y + 1) * p := by ring
    _ ≤ h * p := Nat.mul_le_mul_right p hy
    _ = p * h := Nat.mul_comm h p

theorem innerFold_bit (P : List Nat) (w p h y : Nat) (hw : w ≤ 8 * p) (hy : y < h) :
    ∀ (n : Nat) (cs : List Nat) (x' y' : Nat), n ≤ w → x' < 8 * p → y' < h →
      p * h ≤ cs.length →
      gridGetBit ((List.range n).foldl (fun cs2 x => tickCellBytes P w p h cs2 x y) cs)
          p x' y' =
        (gridGetBit cs p x' y' || (decide (y' = y ∧ x' < n) && ruleBit P w p h x' y)) := by
  intro n
  induction n with
  | zero => intro cs x' y' _ _ _ _; simp
  | succ n ih =>
    intro cs x' y' hn hx' hy' hlen
    have hnw : n < w := Nat.lt_of_succ_le hn
    have hn8 : n < 8 * p := Nat.lt_of_lt_of_le hnw hw
    rw [List.range_succ, List.foldl_append, List.foldl_cons, List.foldl_nil]
    have hoff : grid_offset p n y <
        ((List.range n).foldl (fun cs2 x => tickCellBytes P w p h cs2 x y) cs).length := by
      rw [innerFold_length]
      exact Nat.lt_of_lt_of_le (grid_offset_lt p h n y hn8 hy) hlen
    rw [gridGetBit_tickCellBytes P w p h _ n y x' y' hoff]
    rw [ih cs x' y' (Nat.le_of_lt hnw) hx' hy' hlen]
    by_cases hc : x' = n ∧ y' = y
    · obtain ⟨hc1, hc2⟩ := hc
      subst hc1; subst hc2
      simp [Nat.lt_succ_iff, Nat.lt_irrefl]
    · have hdec : decide (grid_offset p x' y' = grid_offset p n y ∧ x' % 8 = n % 8) = false := by
        rw [decide_eq_false_iff_not]
        intro ⟨h1, h2⟩
        exact hc (grid_offset_inj hn8 hx' h1 h2)
      rw [hdec]
      have hiff : (y' = y ∧ x' < n + 1) ↔ (y' = y ∧ x' < n) := by
        constructor
        · intro ⟨ha, hb⟩
          refine ⟨ha, ?_⟩
          rcases Nat.lt_succ_iff_lt_or_eq.mp hb with h | h
          · exact h
          · exact absurd ⟨h, ha⟩ hc
        · intro ⟨ha, hb⟩; exact ⟨ha, Nat.lt_succ_of_lt hb⟩
      simp [hiff]

theorem outerFold_length (P : List Nat) (w p h : Nat) :
    ∀ (m : Nat) (cs : List Nat),
      ((List.range m).foldl (fun cs0 yy =>
          (List.range w).foldl (fun cs2 x => tickCellBytes P w p h cs2 x yy) cs0) cs).length =
        cs.length := by
  intro m
  induction m with
  | zero => intro cs; rfl
  | succ m ih =>
    intro cs
    rw [List.range_succ, List.foldl_append]
    simp [innerFold_length, ih]

theorem outerFold_bit (P : List Nat) (w p h : Nat) (hw : w ≤ 8 * p) :
    ∀ (m : Nat) (cs : List Nat) (x' y' : Nat), m ≤ h → x' < 8 * p → y' < h →
      p * h ≤ cs.length →
      gridGetBit ((List.range m).foldl (fun cs0 yy =>
          (List.range w).foldl (fun cs2 x => tickCellBytes P w p h cs2 x yy) cs0) cs)
          p x' y' =
        (gridGetBit cs p x' y' || (decide (y' < m ∧ x' < w) && ruleBit P w p h x' y')) := by
  intro m
  induction m with
  | zero => intro cs x' y' _ _ _ _; simp
  | succ m ih =>
    intro cs x' y' hm hx' hy' hlen
    have hmh : m < h := Nat.lt_of_succ_le hm
    rw [List.range_succ, List.foldl_append, List.foldl_cons, List.foldl_nil]
    have hlen2 : p * h ≤ ((List.range m).foldl (fun cs0 yy =>
        (List.range w).foldl (fun cs2 x => tickCellBytes P w p h cs2 x yy) cs0) cs).length := by
      rw [outerFold_length]; exact hlen
    rw [innerFold_bit P w p h m hw hmh w _ x' y' (Nat.le_refl w) hx' hy' hlen2]
    rw [ih cs x' y' (Nat.le_of_lt hmh) hx' hy' hlen]
    by_cases hc : y' = m
    · subst hc
      simp [Nat.lt_succ_iff, Nat.lt_irrefl]
    · have hiff : (y' < m + 1 ∧ x' < w) ↔ (y' < m ∧ x' < w) := by
        constructor
        · intro ⟨ha, hb⟩
          rcases Nat.lt_succ_iff_lt_or_eq.mp ha with h | h
          · exact ⟨h, hb⟩
          · exact absurd h hc
        · intro ⟨ha, hb⟩; exact ⟨Nat.lt_succ_of_lt ha, hb⟩
      simp [hiff, hc]

/-! ### `gridTick` as a plane computation -/

theorem foldl_tickCell_row (y : Nat) :
    ∀ (l : List Nat) (acc : Grid),
      l.foldl (fun a x => gridTickCell a x y) acc =
        { acc with cells :=
            l.foldl (fun cs x =>
              tickCellBytes acc.parents acc.width acc.pitch acc.height cs x y) acc.cells } := by
  intro l
  induction l with
  | nil => intro acc; rfl
  | cons x xs ih =>
    intro acc
    rw [List.foldl_cons, List.foldl_cons, ih]
    rfl

theorem foldl_tickCell_rows (w0 : Nat) :
    ∀ (l : List Nat) (acc : Grid),
      l.foldl (fun a yy => (List.range w0).foldl (fun a2 x => gridTickCell a2 x yy) a) acc =
        { acc with cells :=
            l.foldl (fun cs yy => (List.range w0).foldl (fun cs2 x =>
              tickCellBytes acc.parents acc.width acc.pitch acc.height cs2 x yy) cs) acc.cells } := by
  intro l
  induction l with
  | nil => intro acc; rfl
  | cons yy ys ih =>
    intro acc
    rw [List.foldl_cons, List.foldl_cons, foldl_tickCell_row, ih]

/-- The plane computed by one full tick loop, starting from the zeroed
scratch plane. -/
def tickPlane (P : List Nat) (w p h : Nat) (cs : List Nat) : List Nat :=
  (List.range h).foldl (fun cs0 yy => (List.range w).foldl (fun cs2 x =>
      tickCellBytes P w p h cs2 x yy) cs0) (memsetZero cs (p * h))

/-- `grid_tick` only recomputes the `cells` plane: closed form of the
double loop over the zeroed plane. -/
theorem gridTick_eq (g : Grid) :
    gridTick g =
      { g with cells := tickPlane g.parents g.width g.pitch g.height g.cells } := by
  unfold gridTick tickPlane
  rw [foldl_tickCell_rows]

theorem gridGetBit_memsetZero (l : List Nat) (n p x y : Nat) (h : grid_offset p x y < n) :
    gridGetBit (memsetZero l n) p x y = false := by
  unfold gridGetBit getByte memsetZero
  rw [List.getD_eq_getElem?_getD, List.getElem?_append_left (by simpa using h)]
  simp [List.getElem?_replicate, h, Nat.zero_testBit]

/-- The bit the tick writes for an in-range cell is exactly the rule bit:
the zeroed plane contributes nothing and every other cell of the loop
writes elsewhere. -/
theorem gridTick_getBit (g : Grid) (x y : Nat) (hx : x < g.width) (hy : y < g.height)
    (hw : g.width ≤ 8 * g.pitch) :
    gridGetBit (gridTick g).cells g.pitch x y =
      ruleBit g.parents g.width g.pitch g.height x y := by
  have hx8 : x < 8 * g.pitch := Nat.lt_of_lt_of_le hx hw
  have hlen : g.pitch * g.height ≤ (memsetZero g.cells (g.pitch * g.height)).length := by
    simp [memsetZero]
  rw [gridTick_eq]
  show gridGetBit (tickPlane g.parents g.width g.pitch g.height g.cells) g.pitch x y = _
  unfold tickPlane
  rw [outerFold_bit g.parents g.width g.pitch g.height hw g.height _ x y
    (Nat.le_refl g.height) hx8 hy hlen]
  rw [gridGetBit_memsetZero _ _ _ _ _ (grid_offset_lt g.pitch g.height x y hx8 hy)]
  simp [hx, hy]

/-! ### `wrap` agrees with the mathematical modulus on the offsets used -/

theorem wrap_eq_emod (i : Int) (m : Nat) (hm : 0 < m) (h1 : -(m : Int) ≤ i)
    (h2 : i < 2 * (m : Int)) :
    wrap i m = (i % (m : Int)).toNat := by
  have hmod : ∀ a : Int, (a + (m : Int)) % (m : Int) = a % (m : Int) := by
    intro a
    have hh := Int.add_mul_emod_self_left (a := a) (b := (m : Int)) (c := 1)
    simpa using hh
  unfold wrap
  by_cases hneg : i < 0
  · have he : i % (m : Int) = i + m := by
      rw [← hmod i, Int.emod_eq_of_lt (by omega) (by omega)]
    simp [hneg, he]
  · by_cases hge : i ≥ (m : Int)
    · have he : i % (m : Int) = i - m := by
        have hh := hmod (i - m)
        rw [Int.sub_add_cancel] at hh
        rw [hh, Int.emod_eq_of_lt (by omega) (by omega)]
      simp [hneg, hge, he]
    · have he : i % (m : Int) = i := Int.emod_eq_of_lt (by omega) (by omega)
      simp [hneg, hge, he]

theorem countBytes_eq_mod (g : Grid) (x y : Nat) (hx : x < g.width) (hy : y < g.height) :
    countBytes g.parents g.width g.pitch g.height x y = neighborCountMod g x y := by
  unfold countBytes neighborCountMod
  refine congrArg List.length (List.filter_congr ?_)
  intro d hd
  have hball : ∀ d ∈ neighborDeltas, -1 ≤ d.1 ∧ d.1 ≤ 1 ∧ -1 ≤ d.2 ∧ d.2 ≤ 1 := by decide
  obtain ⟨h11, h12, h21, h22⟩ := hball d hd
  rw [wrap_eq_emod _ _ (by omega) (by omega) (by omega),
    wrap_eq_emod _ _ (by omega) (by omega) (by omega)]

/-! ### Claim theorems for the tick, the swap, and the frame condition -/

/-- C1: for every grid (with the `pitch = ceil(width/8)` layout produced by
`grid_new`, here weakened to `width ≤ 8 * pitch`) and every in-range cell
(x,y), `grid_tick` writes into the next plane the standard Life successor:
the cell's bit in the freshly computed `cells` plane equals the spec's
transition table applied to its current liveness and the count of live
neighbours among the 8 toroidally wrapped adjacent cells of the `parents`
plane, indices taken modulo width and height. -/
theorem grid_tick_cell_standard_life (g : Grid) (x y : Nat)
    (hx : x < g.width) (hy : y < g.height) (hw : g.width ≤ 8 * g.pitch) :
    gridGetBit (gridTick g).cells g.pitch x y =
      lifeSpecRule (gridGetBit g.parents g.pitch x y) (neighborCountMod g x y) := by
  rw [gridTick_getBit g x y hx hy hw]
  unfold ruleBit lifeSpecRule
  rw [countBytes_eq_mod g x y hx hy]

/-- An 8x8 one-byte-per-row grid holding a vertical blinker in its current
plane, used as a concrete witness input. -/
def blinker8 : Grid :=
  { width := 8, pitch := 1, height := 8, scale := 1,
    parents := [2, 2, 2, 0, 0, 0, 0, 0], cells := List.replicate 8 0 }

/-- Witness for C1: the theorem applied to the blinker grid at cell (1,1). -/
theorem grid_tick_cell_standard_life_witness :
    gridGetBit (gridTick blinker8).cells blinker8.pitch 1 1 =
      lifeSpecRule (gridGetBit blinker8.parents blinker8.pitch 1 1)
        (neighborCountMod blinker8 1 1) :=
  grid_tick_cell_standard_life blinker8 1 1 (by decide) (by decide) (by decide)

/-- C10: `grid_tick` leaves the current (`parents`) plane byte-for-byte
unchanged; it writes only into the scratch (`cells`) plane. -/
theorem grid_tick_preserves_parents (g : Grid) :
    (gridTick g).parents = g.parents := by
  rw [gridTick_eq]

/-- C2: after `grid_tick` followed by `grid_swap`, the plane named
`parents` (the current plane) holds exactly the bytes the tick computed
into `cells`, and a second swap with no intervening tick restores the grid
to its pre-swap contents. -/
theorem grid_swap_content_preserving (g : Grid) :
    (gridSwap (gridTick g)).parents = (gridTick g).cells ∧
      gridSwap (gridSwap (gridTick g)) = gridTick g :=
  ⟨rfl, rfl⟩

/-! ### The glider scenario (C8) -/

/-- A 16x16 toroidal grid, two bytes of pitch, both planes clear. -/
def emptyGrid16 : Grid :=
  { width := 16, pitch := 2, height := 16, scale := 1,
    parents := List.replicate 32 0, cells := List.replicate 32 0 }

/-- The 16x16 grid seeded with the glider at anchor (0,0). -/
def gliderSeeded16 : Grid := gridAddGlider emptyGrid16 0 0

/-- One generation exactly as the main loop performs it: `grid_tick`
followed by `grid_swap` (kmslife.c lines 557-566). -/
def gridGeneration (g : Grid) : Grid := gridSwap (gridTick g)

/-- The seeded grid after four generations. -/
def gliderAfter4 : Grid :=
  gridGeneration (gridGeneration (gridGeneration (gridGeneration gliderSeeded16)))

/-- C8: four generations translate the glider by (+1,+1) modulo the grid
size: a cell (x,y) is live in generation 4 exactly when the cell one step
up and to the left (modulo 16) was live in the seeded grid. -/
theorem glider_period4_translation :
    ∀ x, x < 16 → ∀ y, y < 16 →
      gridGetBit gliderAfter4.parents 2 x y =
        gridGetBit gliderSeeded16.parents 2 ((x + 15) % 16) ((y + 15) % 16) := by
  have hplane : gliderAfter4.parents = (gridAddGlider emptyGrid16 1 1).parents := by decide
  have htrans : ∀ x, x < 16 → ∀ y, y < 16 →
      gridGetBit (gridAddGlider emptyGrid16 1 1).parents 2 x y =
        gridGetBit gliderSeeded16.parents 2 ((x + 15) % 16) ((y + 15) % 16) := by decide
  intro x hx y hy
  rw [hplane]
  exact htrans x hx y hy

/-- Witness for C8: the head cell of the translated glider at (2,1). -/
theorem glider_period4_translation_witness :
    gridGetBit gliderAfter4.parents 2 2 1 =
      gridGetBit gliderSeeded16.parents 2 ((2 + 15) % 16) ((1 + 15) % 16) :=
  glider_period4_translation 2 (by decide) 1 (by decide)

/-! ### The RLE pattern loader (C6) -/

/-- Value of a digit string, as `strtoul(ptr, &end, 10)` computes it. -/
def digitsToNat (ds : List Char) : Nat :=
  ds.foldl (fun a c => a * 10 + (c.toNat - 48)) 0

/-- The inner `for` loop of the `o` case: `count` cells starting at column
`s` of pattern row `t`, offset by the anchor. -/
def addRun (g : Grid) (ax ay s t count : Nat) : Grid :=
  (List.range count).foldl (fun a i => gridAddCell a (ax + s + i) (ay + t)) g

/-- The token loop of `grid_load_rle` lines 338-366 on one line: an
integer prefix (absent means 1) followed by `o` marks that many live
cells advancing the column cursor `s`, `b` only advances `s`, `$` adds the
count to the row cursor `t` and resets `s`, anything else (such as `!`) is
ignored.  The fuel argument bounds the recursion by the line length; the C
loop would walk past the terminator on a line ending in digits (the model
stops there instead, a case no input of this development reaches). -/
def rleTokenLoop (ax ay : Nat) : Nat → Grid → Nat → Nat → List Char → Grid × Nat × Nat
  | _, g, s, t, [] => (g, s, t)
  | 0, g, s, t, _ => (g, s, t)
  | fuel + 1, g, s, t, cs =>
    let digits := cs.takeWhile fun c => c.isDigit
    let rest := cs.dropWhile fun c => c.isDigit
    let count := if digits.isEmpty then 1 else digitsToNat digits
    match rest with
    | [] => (g, s, t)
    | c :: rest2 =>
      if c = 'o' then rleTokenLoop ax ay fuel (addRun g ax ay s t count) (s + count) t rest2
      else if c = 'b' then rleTokenLoop ax ay fuel g (s + count) t rest2
      else if c = '$' then rleTokenLoop ax ay fuel g 0 (t + count) rest2
      else rleTokenLoop ax ay fuel g s t rest2

/-- One `getline` iteration of `grid_load_rle`: comment lines (`#`) and the
header line (`x`) only print, any other line is chopped of its final
character (`line[num - 1] = 0`, normally the newline) and token-scanned.
The cursors `s`,`t` persist across lines. -/
def rleLoadLine (ax ay : Nat) (st : Grid × Nat × Nat) (line : List Char) :
    Grid × Nat × Nat :=
  if line.head? = some '#' then st
  else if line.head? = some 'x' then st
  else rleTokenLoop ax ay (line.dropLast).length st.1 st.2.1 st.2.2 line.dropLast

/-- `grid_load_rle(grid, filename, x, y)` lines 305-371, with the file
already split into `getline` lines (each line keeps its newline; the last
may lack one). -/
def grid_load_rle (g : Grid) (lines : List (List Char)) (ax ay : Nat) : Grid :=
  (lines.foldl (rleLoadLine ax ay) (g, 0, 0)).1

/-- The pattern file of the spec scenario:
header `x = 3, y = 3, rule = B3/S23` and body `3o$b2o$2bo!`. -/
def rleGliderFile : List (List Char) :=
  ["x = 3, y = 3, rule = B3/S23\n".toList, "3o$b2o$2bo!".toList]

/-- An 8x8 grid, one byte of pitch, both planes clear. -/
def emptyGrid8 : Grid :=
  { width := 8, pitch := 1, height := 8, scale := 1,
    parents := List.replicate 8 0, cells := List.replicate 8 0 }

/-- C6 counterexample: loading the scenario file at anchor (0,0) makes
cell (0,0) live, but (0,0) is not one of the glider's five canonical
offsets (the body `3o$b2o$2bo` encodes six live cells, not a glider). -/
theorem rle_sample_not_glider :
    gridGetBit (grid_load_rle emptyGrid8 rleGliderFile 0 0).parents 1 0 0 = true ∧
      gridGetBit (gridAddGlider emptyGrid8 0 0).parents 1 0 0 = false := by decide

/-- The six offsets the scenario file actually encodes. -/
def rleSixOffsets : List (Nat × Nat) :=
  [(0, 0), (1, 0), (2, 0), (1, 1), (2, 1), (2, 2)]

/-- C6 amended: loading the scenario file at anchor (0,0) makes live
exactly the six offsets `rleSixOffsets` (rows `3o`, `b2o`, `2bo`), with
the integer-prefix semantics of `o`, `b` and `$` as described. -/
theorem rle_sample_live_cells :
    ∀ x, x < 8 → ∀ y, y < 8 →
      gridGetBit (grid_load_rle emptyGrid8 rleGliderFile 0 0).parents 1 x y =
        decide ((x, y) ∈ rleSixOffsets) := by decide

/-- Witness for the amended C6 at cell (1,1). -/
theorem rle_sample_live_cells_witness :
    gridGetBit (grid_load_rle emptyGrid8 rleGliderFile 0 0).parents 1 1 1 =
      decide ((1, 1) ∈ rleSixOffsets) :=
  rle_sample_live_cells 1 (by decide) 1 (by decide)

/-! ### Rasterization (C9) -/

/-- A 32-bit store into byte-addressed framebuffer memory
(`ptr[j][x * scale + i] = color`). -/
def writeWord (mem : Nat → Nat) (addr val : Nat) : Nat → Nat :=
  fun a => if a = addr then val else mem a

/-- The pixel loop of `grid_draw` lines 156-177: for every cell row `y`,
every cell `x`, the cell's colour (all-white `0xffffffff` if its bit in the
`cells` plane is set, all-black otherwise) is stored into the
`scale x scale` pixel block whose word at offset (i,j) lives at byte
address `(y * scale + j) * fbpitch + 4 * (x * scale + i)`, `fbpitch` being
the framebuffer row stride in bytes (`fb->bo->pitch`).  The surface
lock/unlock surrounding the loop is device plumbing and is not modelled. -/
def grid_draw (g : Grid) (fbpitch : Nat) (mem : Nat → Nat) : Nat → Nat :=
  (List.range g.height).foldl (fun m y =>
    (List.range g.width).foldl (fun m2 x =>
      (List.range g.scale).foldl (fun m3 j =>
        (List.range g.scale).foldl (fun m4 i =>
          writeWord m4 ((y * g.scale + j) * fbpitch + 4 * (x * g.scale + i))
            (if gridGetBit g.cells g.pitch x y then 0xffffffff else 0x00000000)) m3) m2) m)
    mem

/-- The scenario grid of C9: 2x2 cells, cells (0,0) and (1,1) live in the
`cells` plane, scale 2. -/
def rasterGrid2 : Grid :=
  { width := 2, pitch := 1, height := 2, scale := 2,
    parents := [0, 0], cells := [1, 2] }

/-- C9: rasterizing the scenario grid at a 32-byte row stride into zeroed
memory paints pixel (c,r), at byte address `r * 32 + 4 * c`, white exactly
on the two diagonal 2x2 blocks: rows 0-1 have pixels 0-1 white and 2-3
black, rows 2-3 have pixels 0-1 black and 2-3 white. -/
theorem grid_draw_2x2_scale2 :
    ∀ r, r < 4 → ∀ c, c < 4 →
      grid_draw rasterGrid2 32 (fun _ => 0) (r * 32 + 4 * c) =
        (if (r < 2 ∧ c < 2) ∨ (2 ≤ r ∧ 2 ≤ c) then 0xffffffff else 0x00000000) := by
  decide

/-- Witness for C9 at pixel (0,0). -/
theorem grid_draw_2x2_scale2_witness :
    grid_draw rasterGrid2 32 (fun _ => 0) (0 * 32 + 4 * 0) =
      (if (0 < 2 ∧ 0 < 2) ∨ (2 ≤ 0 ∧ 2 ≤ 0) then 0xffffffff else 0x00000000) :=
  grid_draw_2x2_scale2 0 (by decide) 0 (by decide)

/-! ### Grid creation and the zero-scale check (C7) -/

/-- Failure modes of grid creation in the model.  `allocationError` is a
`calloc` returning NULL (grid_new returns NULL); `divisionByZero` is the
fault of a C unsigned division with zero divisor. -/
inductive GridError where
  | allocationError : GridError
  | divisionByZero : GridError
deriving Repr, DecidableEq

/-- C unsigned division: undefined behaviour when the divisor is zero,
modelled as an explicit fault. -/
def divU (a b : Nat) : Except GridError Nat :=
  if b = 0 then Except.error GridError.divisionByZero else Except.ok (a / b)

/-- `DIV_ROUND_UP(n, d)` from kmslife.c line 29 (used only with d = 8). -/
def DIV_ROUND_UP (n d : Nat) : Nat := (n + d - 1) / d

/-- `grid_new(width, height, scale)` lines 43-73.  The very first operation
is `width / scale` (line 46), with no check of `scale`; the further
divisions are `pitch * height / scale` (line 47) and `height / scale`
(line 56).  The `calloc` calls are modelled as always succeeding, so the
model never returns `allocationError`; memory exhaustion is outside the
model. -/
def grid_new (width height scale : Nat) : Except GridError Grid := do
  let w ← divU width scale
  let pitch := DIV_ROUND_UP w 8
  let size ← divU (pitch * height) scale
  let h ← divU height scale
  Except.ok
    { width := w, pitch := pitch, height := h, scale := scale,
      parents := List.replicate size 0, cells := List.replicate size 0 }

/-- The `-S` option handler of `main`, lines 474-480: `if (!scale)` the
program prints a diagnostic and exits 1, so `grid_new` is never reached
with a zero scale from the command line. -/
def main_scale_ok (scale : Nat) : Bool := !(scale == 0)

/-- C7 counterexample: `grid_new` with scale 0 does not fail with
`allocationError`; it faults on the division `width / scale` performed
before any check. -/
theorem grid_new_zero_scale_counterexample :
    grid_new 640 480 0 = Except.error GridError.divisionByZero ∧
      grid_new 640 480 0 ≠ Except.error GridError.allocationError := by
  exact ⟨rfl, fun h => GridError.noConfusion (Except.error.inj h)⟩

/-- C7 amended: `grid_new` itself performs no zero-scale rejection — with
scale 0 its first dimension computation divides by zero — and the
rejection of a zero scale instead happens in `main`'s option parsing,
which refuses the value before any grid is created and accepts every
non-zero scale. -/
theorem grid_new_zero_scale_faults :
    (∀ w h : Nat, grid_new w h 0 = Except.error GridError.divisionByZero) ∧
      main_scale_ok 0 = false ∧ (∀ s : Nat, 0 < s → main_scale_ok s = true) := by
  refine ⟨fun w h => rfl, rfl, fun s hs => ?_⟩
  simp [main_scale_ok]
  omega

/-- Witness for the amended C7 at (640, 480) and scale 2. -/
theorem grid_new_zero_scale_faults_witness :
    grid_new 640 480 0 = Except.error GridError.divisionByZero ∧
      main_scale_ok 0 = false ∧ main_scale_ok 2 = true :=
  ⟨grid_new_zero_scale_faults.1 640 480, grid_new_zero_scale_faults.2.1,
    grid_new_zero_scale_faults.2.2 2 (by decide)⟩

/-! ### The dumb buffer object and its map state (C3, C4) -/

/-- `struct dumb_bo` from drm-utils.h: the mapped pointer (`NULL` is
`none`) and the `int map_count`.  The immutable handle/size/pitch fields
play no role in the mapping claims and are kept as plain data. -/
structure DumbBo where
  handle : Nat
  size : Nat
  pitch : Nat
  ptr : Option Nat
  map_count : Int
deriving Repr, DecidableEq

/-- `dumb_bo_map(bo)` drm-utils.c lines 64-90.  `ioctlOk` models the
outcome of `DRM_IOCTL_MODE_MAP_DUMB`, `mmapRes` the result of `mmap`
(`none` is `MAP_FAILED`), `errno` the device errno.  A buffer whose `ptr`
is already set only gets its `map_count` incremented; otherwise a
successful ioctl+mmap stores the pointer — and, notably, leaves
`map_count` untouched. -/
def dumb_bo_map (bo : DumbBo) (ioctlOk : Bool) (mmapRes : Option Nat) (errno : Int) :
    DumbBo × Int :=
  match bo.ptr with
  | some _ => ({ bo with map_count := bo.map_count + 1 }, 0)
  | none =>
    if ioctlOk then
      match mmapRes with
      | some addr => ({ bo with ptr := some addr }, 0)
      | none => (bo, -errno)
    else (bo, -errno)

/-- `dumb_bo_unmap(bo)` lines 92-97: decrements `map_count`
unconditionally and never unmaps. -/
def dumb_bo_unmap (bo : DumbBo) : DumbBo × Int :=
  ({ bo with map_count := bo.map_count - 1 }, 0)

/-- `dumb_bo_destroy(bo)` lines 42-62: if mapped, `munmap`s and clears the
pointer, then frees the kernel allocation (`ioctlOk` models the destroy
ioctl; on failure the partially-torn-down state is returned with
`-errno`). -/
def dumb_bo_destroy (bo : DumbBo) (ioctlOk : Bool) (errno : Int) : DumbBo × Int :=
  let bo1 := if bo.ptr.isSome then { bo with ptr := none } else bo
  if ioctlOk then (bo1, 0) else (bo1, -errno)

/-- One operation of a map/unmap/destroy sequence, carrying the device
responses it receives. -/
inductive BoOp where
  | mapOp (ioctlOk : Bool) (mmapRes : Option Nat) (errno : Int) : BoOp
  | unmapOp : BoOp
  | destroyOp (ioctlOk : Bool) (errno : Int) : BoOp
deriving Repr, DecidableEq

def boStep (bo : DumbBo) : BoOp → DumbBo
  | BoOp.mapOp ok res e => (dumb_bo_map bo ok res e).1
  | BoOp.unmapOp => (dumb_bo_unmap bo).1
  | BoOp.destroyOp ok e => (dumb_bo_destroy bo ok e).1

def boRun (bo : DumbBo) (ops : List BoOp) : DumbBo := ops.foldl boStep bo

def isDestroyOp : BoOp → Bool
  | BoOp.destroyOp _ _ => true
  | _ => false

/-- A freshly created buffer as `dumb_bo_create` leaves it: `calloc`ed, so
`ptr = NULL` and `map_count = 0`. -/
def freshBo : DumbBo :=
  { handle := 1, size := 4096, pitch := 64, ptr := none, map_count := 0 }

/-- C3 (code observation): the first successful map of a fresh buffer
stores the pointer but leaves `map_count` at 0 — the pointer is non-null
while the reference count is not positive, and a following unmap drives
the count to -1.  The claimed invariant `ptr non-null iff map_count > 0`
fails after one successful map. -/
theorem dumb_bo_first_map_leaves_count_zero :
    (dumb_bo_map freshBo true (some 4096) 0).1.ptr = some 4096 ∧
      (dumb_bo_map freshBo true (some 4096) 0).1.map_count = 0 ∧
      (dumb_bo_unmap (dumb_bo_map freshBo true (some 4096) 0).1).1.map_count = -1 := by
  decide

/-- A map call on an already-mapped buffer keeps the stored pointer,
whatever the device responses are (lines 70-73 return before any device
call). -/
theorem dumb_bo_map_mapped (bo : DumbBo) (a : Nat) (ok : Bool) (res : Option Nat)
    (e : Int) (h : bo.ptr = some a) : (dumb_bo_map bo ok res e).1.ptr = some a := by
  simp [dumb_bo_map, h]

/-- C4: an already-mapped buffer returns the same pointer from a second
map call whatever the device does, and the pointer is dropped (the mapping
released) only by a destroy: no sequence of map/unmap operations without a
destroy ever clears it. -/
theorem dumb_bo_map_idempotent_release_by_destroy :
    (∀ (bo : DumbBo) (a : Nat) (e1 : Int) (ok2 : Bool) (res2 : Option Nat) (e2 : Int),
      bo.ptr = none →
      (dumb_bo_map bo true (some a) e1).1.ptr = some a ∧
        (dumb_bo_map (dumb_bo_map bo true (some a) e1).1 ok2 res2 e2).1.ptr = some a) ∧
    (∀ (bo : DumbBo) (ops : List BoOp),
      bo.ptr.isSome → (boRun bo ops).ptr = none → ∃ op ∈ ops, isDestroyOp op) := by
  constructor
  · intro bo a e1 ok2 res2 e2 hnone
    have h1 : (dumb_bo_map bo true (some a) e1).1.ptr = some a := by
      simp [dumb_bo_map, hnone]
    exact ⟨h1, dumb_bo_map_mapped _ a ok2 res2 e2 h1⟩
  · intro bo ops
    induction ops generalizing bo with
    | nil =>
      intro hsome hnone
      rw [boRun, List.foldl_nil] at hnone
      rw [hnone] at hsome
      exact absurd hsome (by simp)
    | cons op ops ih =>
      intro hsome hnone
      rw [boRun, List.foldl_cons] at hnone
      match op with
      | BoOp.destroyOp ok e =>
        exact ⟨BoOp.destroyOp ok e, List.mem_cons_self _ _, rfl⟩
      | BoOp.mapOp ok res e =>
        obtain ⟨a, ha⟩ := Option.isSome_iff_exists.mp hsome
        have hstep : (boStep bo (BoOp.mapOp ok res e)).ptr = some a :=
          dumb_bo_map_mapped bo a ok res e ha
        have hsome2 : (boStep bo (BoOp.mapOp ok res e)).ptr.isSome := by
          rw [hstep]; rfl
        obtain ⟨op2, hm, hd⟩ := ih _ hsome2 hnone
        exact ⟨op2, List.mem_cons_of_mem _ hm, hd⟩
      | BoOp.unmapOp =>
        have hsome2 : (boStep bo BoOp.unmapOp).ptr.isSome := by
          simpa [boStep, dumb_bo_unmap] using hsome
        obtain ⟨op2, hm, hd⟩ := ih _ hsome2 hnone
        exact ⟨op2, List.mem_cons_of_mem _ hm, hd⟩

/-- A mapped buffer used by the C4 witness. -/
def mappedBo : DumbBo :=
  { handle := 1, size := 4096, pitch := 64, ptr := some 4096, map_count := 1 }

/-- Witness for C4: two maps from a fresh buffer return the pointer twice,
and on a mapped buffer a single destroy clears it. -/
theorem dumb_bo_map_idempotent_release_by_destroy_witness :
    ((dumb_bo_map freshBo true (some 4096) 0).1.ptr = some 4096 ∧
      (dumb_bo_map (dumb_bo_map freshBo true (some 4096) 0).1 true none 5).1.ptr =
        some 4096) ∧
      ∃ op ∈ [BoOp.destroyOp true 0], isDestroyOp op :=
  ⟨dumb_bo_map_idempotent_release_by_destroy.1 freshBo 4096 0 true none 5 rfl,
    dumb_bo_map_idempotent_release_by_destroy.2 mappedBo [BoOp.destroyOp true 0]
      rfl rfl⟩

/-! ### The screen present operations (C5) -/

/-- `struct screen` from drm-utils.h, restricted to the fields the present
operations touch: the two framebuffer ids and the active index
`current`. -/
structure Screen where
  width : Nat
  height : Nat
  connector : Nat
  crtc : Nat
  pipe : Nat
  fb0 : Nat
  fb1 : Nat
  current : Nat
deriving Repr, DecidableEq

/-- `screen_swap(screen)` drm-utils.c lines 304-320: a synchronous
mode-set (`drmModeSetCrtc`, outcome `deviceOk`) against
`fb[screen->current]`; only on success is `current ^= 1` executed. -/
def screen_swap (s : Screen) (deviceOk : Bool) (errno : Int) : Screen × Int :=
  if deviceOk then ({ s with current := s.current ^^^ 1 }, 0) else (s, -errno)

/-- `screen_flip(screen)` lines 322-338: an asynchronous page flip
(`drmModePageFlip`, outcome `deviceOk`); only on success is
`current ^= 1` executed. -/
def screen_flip (s : Screen) (deviceOk : Bool) (errno : Int) : Screen × Int :=
  if deviceOk then ({ s with current := s.current ^^^ 1 }, 0) else (s, -errno)

/-- C5: each successful `screen_swap` or `screen_flip` toggles the active
index exactly once (it becomes `1 - current`, different from before), and
a failed device call leaves the whole screen state unchanged. -/
theorem screen_present_toggles_once (s : Screen) (e : Int) (h : s.current ≤ 1) :
    ((screen_swap s true e).1.current = 1 - s.current ∧
      (screen_swap s true e).1.current ≠ s.current ∧
      (screen_swap s false e).1 = s) ∧
    ((screen_flip s true e).1.current = 1 - s.current ∧
      (screen_flip s true e).1.current ≠ s.current ∧
      (screen_flip s false e).1 = s) := by
  obtain h0 | h1 := Nat.le_one_iff_eq_zero_or_eq_one.mp h <;>
    simp [screen_swap, screen_flip, *]

/-- A concrete screen for the C5 witness. -/
def screen0 : Screen :=
  { width := 1024, height := 768, connector := 30, crtc := 40, pipe := 0,
    fb0 := 50, fb1 := 51, current := 0 }

/-- Witness for C5 at a screen with active index 0. -/
theorem screen_present_toggles_once_witness :
    ((screen_swap screen0 true 5).1.current = 1 - screen0.current ∧
      (screen_swap screen0 true 5).1.current ≠ screen0.current ∧
      (screen_swap screen0 false 5).1 = screen0) ∧
    ((screen_flip screen0 true 5).1.current = 1 - screen0.current ∧
      (screen_flip screen0 true 5).1.current ≠ screen0.current ∧
      (screen_flip screen0 false 5).1 = screen0) :=
  screen_present_toggles_once screen0 5 (by decide)

end Kmslife








